import Mathlib

/-!
Verification development for the domain fingerprinting scanner
`whitelists-research-v2/main.py`.

The Python source is shallowly embedded below.  Pure functions become Lean
functions; network probes (DNS resolution, HTTP requests, TLS handshakes,
WebSocket handshakes) are modelled as oracles: explicit parameters ranging
over every outcome the library calls can produce.  Python `str` is modelled
by `String` (ASCII case-folding; the scanner's inputs are hostnames and
header values), Python `int` by `Nat`, Python `None`-able values by
`Option`, and a Python function that may raise by `Except`.
-/

/-! ## Python string primitives used by the scanner -/

/-- ASCII whitespace, the relevant part of what Python `str.strip()`
removes (space, tab, newline, carriage return, vertical tab, form feed;
Python also strips rarer Unicode space characters, which hostname files do
not contain). -/
def pySpace (c : Char) : Bool := c.toNat = 32 || (9 ≤ c.toNat && c.toNat ≤ 13)

/-- Python `s.strip()` (leading/trailing whitespace removed), as used on raw
input lines in `_norm_domain`.  Implemented on the character list so the
kernel can evaluate it. -/
def pyStrip (s : String) : String :=
  String.mk (((s.data.dropWhile pySpace).reverse.dropWhile pySpace).reverse)

/-- ASCII lowercasing of one character, as Python `str.lower()` acts on the
ASCII range (hostnames and header values; code points above `Z` are kept). -/
def pyLowerChar (c : Char) : Char :=
  if 65 ≤ c.toNat ∧ c.toNat ≤ 90 then Char.ofNat (c.toNat + 32) else c

/-- Python `s.lower()` (the scanner only ever lowercases hostnames and
header values, which are ASCII). -/
def pyLower (s : String) : String := String.mk (s.data.map pyLowerChar)

/-- Whether `pat` begins `cs` (character-level `str.startswith`). -/
def startsWithChars : List Char → List Char → Bool
  | [], _ => true
  | _ :: _, [] => false
  | p :: ps, c :: cs => p = c && startsWithChars ps cs

/-- Python `s.startswith(pat)`. -/
def pyStartsWith (s pat : String) : Bool := startsWithChars pat.data s.data

/-- Python `sep.join(parts)`, on character lists so the kernel can evaluate
it. -/
def pyJoin (sep : String) : List String → String
  | [] => ""
  | [p] => p
  | p :: rest => p ++ sep ++ pyJoin sep rest

/-- Python `s[:n]`. -/
def pyTake (s : String) (n : Nat) : String := String.mk (s.data.take n)

/-- Python `s.rstrip(".")`: remove every trailing dot.  Used on DNS names in
`resolve_cname_chain`. -/
def rstripDots (s : String) : String := String.mk (s.data.reverse.dropWhile (fun c => c == '.')).reverse

/-- Python `s.strip(".")`: remove every leading and trailing dot.  Used on
hostnames in `_norm_domain`. -/
def stripDots (s : String) : String :=
  String.mk (((s.data.dropWhile (fun c => c == '.')).reverse.dropWhile (fun c => c == '.')).reverse)

/-- Python `s.split("/", 1)[0]`: the part of `s` before the first `/`
(or all of `s` when there is none). -/
def beforeSlash (s : String) : String := String.mk (s.data.takeWhile (fun c => c != '/'))

/-- The part of `s` before the first `:` (Python `s.split(":", 1)[0]`). -/
def beforeColon (s : String) : String := String.mk (s.data.takeWhile (fun c => c != ':'))

/-- Number of `:` characters in `s` (Python `s.count(":")`). -/
def colonCount (s : String) : Nat := s.data.count ':'

/-- Whether the character list contains the three-character run `://`
(Python `"://" in s`). -/
def hasSchemeSepChars : List Char → Bool
  | ':' :: '/' :: '/' :: _ => true
  | _ :: rest => hasSchemeSepChars rest
  | [] => false

/-- Python `"://" in s`. -/
def hasSchemeSep (s : String) : Bool := hasSchemeSepChars s.data

/-! ## SHA-256 (models `hashlib.sha256(...).hexdigest()` from the Python
standard library, per FIPS 180-4)

`_sha256_hex` in the source feeds the UTF-8 encoding of its argument to
SHA-256 and returns the lowercase hex digest.  All arithmetic is on `Nat`
with explicit reduction modulo `2^32`. -/

/-- UTF-8 encoding of one character (Python `str.encode("utf-8")`;
the `errors="replace"` mode in the source only matters for lone surrogates,
which `Char` cannot represent). -/
def utf8Bytes (c : Char) : List Nat :=
  let n := c.toNat
  if n < 128 then [n]
  else if n < 2048 then [192 + n / 64, 128 + n % 64]
  else if n < 65536 then [224 + n / 4096, 128 + (n / 64) % 64, 128 + n % 64]
  else [240 + n / 262144, 128 + (n / 4096) % 64, 128 + (n / 64) % 64, 128 + n % 64]

/-- Concatenation of a list of lists. -/
def concatAll {α : Type} (ls : List (List α)) : List α := ls.foldr (fun a b => a ++ b) []

/-- UTF-8 bytes of a string. -/
def strBytes (s : String) : List Nat := concatAll (s.data.map utf8Bytes)

/-- 32-bit right rotation. -/
def rotr32 (x n : Nat) : Nat := ((x >>> n) ||| (x <<< (32 - n))) % 4294967296

/-- SHA-256 small sigma 0. -/
def ssig0 (x : Nat) : Nat := Nat.xor (Nat.xor (rotr32 x 7) (rotr32 x 18)) (x >>> 3)

/-- SHA-256 small sigma 1. -/
def ssig1 (x : Nat) : Nat := Nat.xor (Nat.xor (rotr32 x 17) (rotr32 x 19)) (x >>> 10)

/-- SHA-256 big sigma 0. -/
def bsig0 (x : Nat) : Nat := Nat.xor (Nat.xor (rotr32 x 2) (rotr32 x 13)) (rotr32 x 22)

/-- SHA-256 big sigma 1. -/
def bsig1 (x : Nat) : Nat := Nat.xor (Nat.xor (rotr32 x 6) (rotr32 x 11)) (rotr32 x 25)

/-- SHA-256 choice function. -/
def shaCh (e f g : Nat) : Nat := Nat.xor (e &&& f) ((Nat.xor e 4294967295) &&& g)

/-- SHA-256 majority function. -/
def shaMaj (a b c : Nat) : Nat := Nat.xor (Nat.xor (a &&& b) (a &&& c)) (b &&& c)

/-- The 64 SHA-256 round constants. -/
def shaK : List Nat :=
  [1116352408, 1899447441, 3049323471, 3921009573, 961987163,
   1508970993, 2453635748, 2870763221, 3624381080, 310598401,
   607225278, 1426881987, 1925078388, 2162078206, 2614888103,
   3248222580, 3835390401, 4022224774, 264347078, 604807628,
   770255983, 1249150122, 1555081692, 1996064986, 2554220882,
   2821834349, 2952996808, 3210313671, 3336571891, 3584528711,
   113926993, 338241895, 666307205, 773529912, 1294757372,
   1396182291, 1695183700, 1986661051, 2177026350, 2456956037,
   2730485921, 2820302411, 3259730800, 3345764771, 3516065817,
   3600352804, 4094571909, 275423344, 430227734, 506948616,
   659060556, 883997877, 958139571, 1322822218, 1537002063,
   1747873779, 1955562222, 2024104815, 2227730452, 2361852424,
   2428436474, 2756734187, 3204031479, 3329325298]

/-- SHA-256 working state: eight 32-bit words. -/
structure ShaState where
  a : Nat
  b : Nat
  c : Nat
  d : Nat
  e : Nat
  f : Nat
  g : Nat
  h : Nat
deriving Repr, DecidableEq

/-- SHA-256 initial hash value. -/
def shaH0 : ShaState :=
  ⟨1779033703, 3144134277, 1013904242, 2773480762,
   1359893119, 2600822924, 528734635, 1541459225⟩

/-- One SHA-256 round: consume one round constant and one schedule word. -/
def shaRound (s : ShaState) (kw : Nat × Nat) : ShaState :=
  let t1 := (s.h + bsig1 s.e + shaCh s.e s.f s.g + kw.1 + kw.2) % 4294967296
  let t2 := (bsig0 s.a + shaMaj s.a s.b s.c) % 4294967296
  ⟨(t1 + t2) % 4294967296, s.a, s.b, s.c, (s.d + t1) % 4294967296, s.e, s.f, s.g⟩

/-- Extend a message schedule (held in reverse, most recent word first) by
`n` further words. -/
def extendSched (rws : List Nat) : Nat → List Nat
  | 0 => rws
  | n + 1 =>
      let nw := (ssig1 (rws.getD 1 0) + rws.getD 6 0 + ssig0 (rws.getD 14 0) + rws.getD 15 0)
        % 4294967296
      extendSched (nw :: rws) n

/-- Compress one 16-word block into the running hash state. -/
def compressBlock (h0 : ShaState) (block : List Nat) : ShaState :=
  let w := (extendSched block.reverse 48).reverse
  let s := (shaK.zip w).foldl shaRound h0
  ⟨(h0.a + s.a) % 4294967296, (h0.b + s.b) % 4294967296, (h0.c + s.c) % 4294967296,
   (h0.d + s.d) % 4294967296, (h0.e + s.e) % 4294967296, (h0.f + s.f) % 4294967296,
   (h0.g + s.g) % 4294967296, (h0.h + s.h) % 4294967296⟩

/-- Fold the compression function over a padded message, 16 words at a time
(structural recursion on a fuel bound so the kernel can evaluate it). -/
def compressAllFuel : Nat → ShaState → List Nat → ShaState
  | 0, h, _ => h
  | _ + 1, h, [] => h
  | n + 1, h, w :: rest =>
      compressAllFuel n (compressBlock h (w :: rest.take 15)) (rest.drop 15)

/-- Fold the compression function over the whole padded message. -/
def compressAll (h : ShaState) (ws : List Nat) : ShaState :=
  compressAllFuel ws.length h ws

/-- Big-endian byte rendering of `v` into `k` bytes. -/
def beBytes : Nat → Nat → List Nat
  | 0, _ => []
  | k + 1, v => beBytes k (v / 256) ++ [v % 256]

/-- Group bytes into big-endian 32-bit words. -/
def bytesToWords : List Nat → List Nat
  | b1 :: b2 :: b3 :: b4 :: rest =>
      (b1 * 16777216 + b2 * 65536 + b3 * 256 + b4) :: bytesToWords rest
  | _ => []

/-- SHA-256 padding: append `0x80`, zeros to 56 mod 64, then the bit length
as eight big-endian bytes. -/
def shaPad (msg : List Nat) : List Nat :=
  let l := msg.length
  let zeros := (64 + 55 - (l % 64)) % 64
  msg ++ [128] ++ List.replicate zeros 0 ++ beBytes 8 (l * 8)

/-- SHA-256 of a byte sequence: the eight final hash words. -/
def sha256Words (msg : List Nat) : List Nat :=
  let s := compressAll shaH0 (bytesToWords (shaPad msg))
  [s.a, s.b, s.c, s.d, s.e, s.f, s.g, s.h]

/-- Lowercase hex digit. -/
def hexDigit (n : Nat) : Char := if n < 10 then Char.ofNat (48 + n) else Char.ofNat (87 + n)

/-- Lowercase hex rendering of one 32-bit word (8 digits). -/
def wordHexChars (w : Nat) : List Char :=
  concatAll ((beBytes 4 w).map (fun b => [hexDigit (b / 16), hexDigit (b % 16)]))

/-- `_sha256_hex` (main.py:67-68): `hashlib.sha256(s.encode("utf-8",
errors="replace")).hexdigest()`. -/
def sha256_hex (s : String) : String :=
  String.mk (concatAll ((sha256Words (strBytes s)).map wordHexChars))

/-! ## Data model (the dataclasses of main.py:71-123)

Python dataclass field defaults become Lean default field values.
`WebSocketProbe.ms` is a wall-clock float in Python; timing is not modelled
(no claim depends on its value), so it is carried as an abstract tick count. -/

/-- `HTTPFingerprint` (main.py:71-89). -/
structure HTTPFingerprint where
  ok : Bool := false
  status : Option Nat := none
  final_url : String := ""
  final_host : String := ""
  content_type : String := ""
  server : String := ""
  via : String := ""
  cache : String := ""
  cf_ray : String := ""
  cf_cache_status : String := ""
  x_cache : String := ""
  x_served_by : String := ""
  x_amz_cf_pop : String := ""
  x_amz_cf_id : String := ""
  x_vercel_id : String := ""
  x_nf_request_id : String := ""
  error : String := ""
deriving Repr, DecidableEq

/-- `TLSFingerprint` (main.py:92-103). -/
structure TLSFingerprint where
  ok : Bool := false
  alpn : String := ""
  sni : String := ""
  peer_ip : String := ""
  subject_cn : String := ""
  issuer_cn : String := ""
  san : List String := []
  not_before : String := ""
  not_after : String := ""
  error : String := ""
deriving Repr, DecidableEq

/-- `WebSocketProbe` (main.py:106-112). -/
structure WebSocketProbe where
  url : String
  ok : Bool := false
  negotiated_subprotocol : String := ""
  error : String := ""
  ms : Nat := 0
deriving Repr, DecidableEq

/-- `DomainScanResult` (main.py:115-123). -/
structure DomainScanResult where
  domain : String
  cname_chain : List String := []
  http : HTTPFingerprint := {}
  tls : TLSFingerprint := {}
  websockets : List WebSocketProbe := []
  signature : String := ""
  errors : List String := []
deriving Repr, DecidableEq

/-! ## Signature engine (main.py:291-305) -/

/-- `compute_signature` (main.py:291-305), translated line by line.  Note
that `final_host` is concatenated as-is (`http.final_host or ""`), without
a `.lower()` call, while every other textual field is lowercased. -/
def compute_signature (domain : String) (cname_chain : List String)
    (http : HTTPFingerprint) (tls : TLSFingerprint) : String :=
  let parts : List String := [
    "cname=" ++ (match cname_chain.getLast? with | some t => pyLower t | none => ""),
    "final_host=" ++ http.final_host,
    "status=" ++ (match http.status with | some n => toString n | none => ""),
    "content_type=" ++ pyLower http.content_type,
    "server=" ++ pyLower http.server,
    "via=" ++ pyLower http.via,
    "cache_control=" ++ pyLower http.cache,
    "x_cache=" ++ pyLower http.x_cache,
    "x_served_by=" ++ pyLower http.x_served_by,
    "issuer=" ++ pyLower tls.issuer_cn,
    "alpn=" ++ pyLower tls.alpn]
  pyTake (sha256_hex (pyJoin "|" parts)) 16

/-! ## DNS chain resolver (main.py:126-157)

`dns.resolver.Resolver.resolve(cur, "CNAME")` together with
`str(ans[0].target)` is an external library call; it is modelled as an
oracle `resolve : String → Option String`: `some target` when a CNAME
record is returned and the target renders to a string, `none` for every
failure (`NoAnswer`, `NXDOMAIN`, `NoNameservers`, `Timeout`, or any other
exception at either step — all of which `break` identically in the
source). -/

/-- The `for _ in range(10)` loop body of `resolve_cname_chain`
(main.py:137-153): `cur` is the current name, `chain` the targets collected
so far, `seen` the visited-name set (an insertion-ordered list models the
Python `set`; only membership is used). -/
def cnameLoop (resolve : String → Option String) :
    Nat → String → List String → List String → List String
  | 0, _, chain, _ => chain
  | fuel + 1, cur, chain, seen =>
      if cur ∈ seen then chain
      else
        match resolve cur with
        | none => chain
        | some target =>
            let target := rstripDots target
            cnameLoop resolve fuel target (chain ++ [target]) (seen ++ [cur])

/-- `resolve_cname_chain` (main.py:126-157): walk CNAME records from
`domain.rstrip(".")` for at most 10 hops. -/
def resolve_cname_chain (resolve : String → Option String) (domain : String) : List String :=
  cnameLoop resolve 10 (rstripDots domain) [] []

/-! ## HTTP prober (main.py:160-197)

The single `session.get` call is an external library call, modelled as an
oracle outcome: either the request raised (`Except.error e` carrying
`str(e)`, which may be any string) or a response arrived.  A response is a
status, a final URL (after redirects), an optional final host, and a
case-insensitive header mapping modelled as `String → Option String`
(aiohttp's `headers.get(k, "")` is `(headers k).getD ""`). -/

/-- The data read off an aiohttp response object inside
`fetch_http_fingerprint`. -/
structure HttpResponse where
  status : Nat
  url : String
  urlHost : Option String
  headers : String → Option String

/-- `fetch_http_fingerprint` (main.py:160-197).  On an exception the
fingerprint keeps every dataclass default except `error`; on a response
every curated header is read with default `""`.  (The small body read at
main.py:190-193 is wrapped in its own `try/except pass` and cannot change
the fingerprint; it is not modelled.) -/
def fetch_http_fingerprint (outcome : Except String HttpResponse) : HTTPFingerprint :=
  match outcome with
  | .error e => { error := e }
  | .ok r =>
      { ok := true
        status := some r.status
        final_url := r.url
        final_host := pyLower (r.urlHost.getD "")
        content_type := (r.headers "content-type").getD ""
        server := (r.headers "server").getD ""
        via := (r.headers "via").getD ""
        cache := (r.headers "cache-control").getD ""
        cf_ray := (r.headers "cf-ray").getD ""
        cf_cache_status := (r.headers "cf-cache-status").getD ""
        x_cache := (r.headers "x-cache").getD ""
        x_served_by := (r.headers "x-served-by").getD ""
        x_amz_cf_pop := (r.headers "x-amz-cf-pop").getD ""
        x_amz_cf_id := (r.headers "x-amz-cf-id").getD ""
        x_vercel_id := (r.headers "x-vercel-id").getD ""
        x_nf_request_id := (r.headers "x-nf-request-id").getD ""
        error := "" }

/-! ## Scan orchestration for one domain (main.py:308-343)

`scan_domain` awaits its four probes in order; each probe call is modelled
by its outcome.  The DNS await is wrapped in `try/except` in the source
(main.py:323-326), so its outcome is an `Except` (`resolve_cname_chain`
itself never raises, but e.g. the thread offload could); the HTTP, TLS and
WebSocket probes return their structures unconditionally.  The semaphore
wrapping the body (main.py:319) is modelled separately as a transition
system below. -/

/-- The body of `scan_domain` (main.py:320-343): the `try/except` around
the DNS await either delivers the chain or leaves it `[]` and records
`"cname: ..."`; the later probes and the signature are identical in both
branches. -/
def scan_domain (domain : String) (dnsOutcome : Except String (List String))
    (http : HTTPFingerprint) (tls : TLSFingerprint)
    (ws_paths : List String) (wsResults : List WebSocketProbe) : DomainScanResult :=
  match dnsOutcome with
  | .ok chain =>
      { domain := domain
        cname_chain := chain
        http := http
        tls := tls
        websockets := if ws_paths.isEmpty then [] else wsResults
        signature := compute_signature domain chain http tls
        errors := [] ++
          (if http.ok = false ∧ http.error ≠ "" then ["http: " ++ http.error] else []) ++
          (if tls.ok = false ∧ tls.error ≠ "" then ["tls: " ++ tls.error] else []) }
  | .error e =>
      { domain := domain
        cname_chain := []
        http := http
        tls := tls
        websockets := if ws_paths.isEmpty then [] else wsResults
        signature := compute_signature domain [] http tls
        errors := ["cname: " ++ e] ++
          (if http.ok = false ∧ http.error ≠ "" then ["http: " ++ http.error] else []) ++
          (if tls.ok = false ∧ tls.error ≠ "" then ["tls: " ++ tls.error] else []) }


/-! ## Domain normalizer (main.py:28-44)

`urlparse(s).hostname` is a standard-library call (urllib.parse), modelled
as an oracle `urlparse_hostname : String → Except String (Option String)`:
`.ok` carries the hostname (or `none` when the URL has no hostname), and
`.error` carries a raised `ValueError`'s message.  CPython's `urlsplit`
does raise: for an authority with unbalanced square brackets it raises
`ValueError("Invalid IPv6 URL")` (e.g. `urlparse("a://[")`), and since
Python 3.11 a bracketed host that is not a valid IPv6/IPvFuture address
also raises.  `_norm_domain` has no `try/except`, so such an error
propagates to its caller. -/

/-- `_norm_domain` (main.py:28-44), with the urllib hostname extraction as
an oracle.  `.ok none` models the Python `return None` paths; an oracle
error is re-raised (there is no handler in the source). -/
def norm_domain (urlparse_hostname : String → Except String (Option String))
    (line : String) : Except String (Option String) :=
  let s := pyStrip line
  if s = "" then .ok none
  else if pyStartsWith s "#" then .ok none
  else if hasSchemeSep s then
    match urlparse_hostname s with
    | .error e => .error e
    | .ok none => .ok none
    | .ok (some host) =>
        if host = "" then .ok none
        else .ok (some (pyLower (stripDots host)))
  else
    let s1 := beforeSlash s
    let s2 := if colonCount s1 = 1 then beforeColon s1 else s1
    let r := pyLower (stripDots s2)
    .ok (if r = "" then none else some r)

/-! ## Exit behaviour of the scan command (main.py:415-419, 469-476)

`scan_action` first reads and normalizes the domain list; with an empty
list it prints to stderr and returns 2 before creating any task
(main.py:417-419); otherwise it scans every domain and returns 0
(main.py:476).  File reading and the event loop are oracles: the resolved
domain list and the per-domain scan outcome are parameters. -/

/-- Exit code and scanned results of `scan_action`, as a function of the
normalized domain list and of what each domain's scan returns. -/
def scan_action_run (domains : List String) (scan : String → DomainScanResult) :
    Nat × List DomainScanResult :=
  if domains.isEmpty then (2, []) else (0, domains.map scan)

/-- CPython `argparse` exits with status 2 on a command-line parsing error
(`ArgumentParser.error` calls `self.exit(2, ...)`); `build_parser`
(main.py:479-512) uses stock argparse behaviour. -/
def argparse_error_exit_code : Nat := 2

/-! ## Aggregator (main.py:384-389)

`group_by_signature` folds the results into an insertion-ordered dict
(`dict.setdefault(sig, []).append(r)`), modelled as an association list
upserted in place, then sorts the items by member count descending.
Python's `sorted` is a stable sort; it is modelled by a stable insertion
sort (any two stable sorts under the same key agree pointwise). -/

/-- `groups.setdefault(r.signature, []).append(r)` on an insertion-ordered
dict: append to the existing entry in place, or add a new key at the end. -/
def upsertResult (r : DomainScanResult) :
    List (String × List DomainScanResult) → List (String × List DomainScanResult)
  | [] => [(r.signature, [r])]
  | (k, v) :: rest =>
      if k = r.signature then (k, v ++ [r]) :: rest
      else (k, v) :: upsertResult r rest

/-- The dict build-up of main.py:385-387. -/
def buildGroups (results : List DomainScanResult) : List (String × List DomainScanResult) :=
  results.foldl (fun acc r => upsertResult r acc) []

/-- Stable descending insertion by member count: `x` passes every entry
with a strictly larger count and lands before the first entry whose count
is less than or equal to its own, so earlier entries win ties. -/
def insertByCountDesc (x : String × List DomainScanResult) :
    List (String × List DomainScanResult) → List (String × List DomainScanResult)
  | [] => [x]
  | y :: ys => if x.2.length < y.2.length then y :: insertByCountDesc x ys else x :: y :: ys

/-- Stable sort by member count descending, modelling
`sorted(groups.items(), key=lambda kv: len(kv[1]), reverse=True)`
(main.py:388; Python's `sorted` is stable). -/
def sortByCountDesc : List (String × List DomainScanResult) → List (String × List DomainScanResult)
  | [] => []
  | x :: xs => insertByCountDesc x (sortByCountDesc xs)

/-- `group_by_signature` (main.py:384-389). -/
def group_by_signature (results : List DomainScanResult) :
    List (String × List DomainScanResult) :=
  sortByCountDesc (buildGroups results)

/-! ## Concurrency bound (main.py:319, 427-448)

`scan_action` creates one task per domain (main.py:434-448); each task's
whole body runs inside `async with sem:` for the shared
`asyncio.Semaphore(args.concurrency)` (main.py:319, 429).  The scheduler
is modelled as a transition system over task counts: a waiting task may
enter the semaphore only while fewer than `limit` tasks hold it (the
counting-semaphore contract), and an in-flight task may finish at any
time.  Probe durations appear only as the nondeterministic choice of
schedule. -/

/-- Orchestrator state: how many per-domain scan tasks are waiting on the
semaphore, in flight inside `scan_domain`'s body, and finished. -/
structure SchedulerState where
  waiting : Nat
  inflight : Nat
  finished : Nat
deriving Repr, DecidableEq

/-- One scheduler step under concurrency limit `limit`. -/
inductive SchedulerStep (limit : Nat) : SchedulerState → SchedulerState → Prop
  | acquire (s : SchedulerState) (hw : 0 < s.waiting) (hroom : s.inflight < limit) :
      SchedulerStep limit s ⟨s.waiting - 1, s.inflight + 1, s.finished⟩
  | release (s : SchedulerState) (hi : 0 < s.inflight) :
      SchedulerStep limit s ⟨s.waiting, s.inflight - 1, s.finished + 1⟩

/-- Reachability along scheduler steps. -/
def SchedulerReaches (limit : Nat) : SchedulerState → SchedulerState → Prop :=
  Relation.ReflTransGen (SchedulerStep limit)

/-- Initial state for `n` domains: all tasks created and waiting
(main.py:434-448), none in flight. -/
def initialSched (n : Nat) : SchedulerState := ⟨n, 0, 0⟩

/-- Default of the `--concurrency` option (main.py:488). -/
def default_concurrency : Nat := 50

/-! ## Concrete fixtures used by witnesses and counterexamples -/

/-- An HTTP fingerprint of a successful probe (used by witnesses). -/
def httpOkFixture : HTTPFingerprint :=
  { ok := true, status := some 200, final_host := "example.com", server := "nginx" }

/-- A TLS fingerprint of a failed probe (used by witnesses). -/
def tlsFailFixture : TLSFingerprint := { ok := false, error := "handshake failed" }

/-- A DNS oracle realizing the synthetic CNAME cycle `a → b → a` of the
spec's cycle-safety property (targets carry the trailing dot of a DNS
answer rendering). -/
def abaOracle : String → Option String :=
  fun s => if s = "a" then some "b." else if s = "b" then some "a." else none

/-- A DNS oracle with a self-CNAME: `a → b`, `b → b`. -/
def selfCnameOracle : String → Option String :=
  fun s => if s = "a" then some "b" else if s = "b" then some "b" else none

/-- CPython's `urlsplit` on an authority with an unbalanced `[` — e.g.
`urlparse("a://[")` — raises `ValueError("Invalid IPv6 URL")`; this oracle
records that standard-library behaviour (the value is only consulted at
such inputs). -/
def bracketParseOracle : String → Except String (Option String) :=
  fun _ => .error "Invalid IPv6 URL"

/-- A scan oracle returning a bare result per domain (used by witnesses). -/
def trivialScan : String → DomainScanResult := fun d => { domain := d }

/-! ## C1 -/

/-- C1: the signature is a pure function of the fixed field subset only.
If two calls to `compute_signature` agree on the terminal CNAME chain
element, final resolved host, HTTP status, content type, server, via,
cache-control, x-cache, x-served-by headers, TLS issuer common name and
negotiated ALPN, the returned digests are identical — regardless of the
domain argument, of CNAME chain elements before the terminal one, and of
every other fingerprint field.  (WebSocket results and timing are not even
arguments of `compute_signature`, so the digest cannot depend on them.) -/
theorem compute_signature_pure_in_fixed_fields
    (d1 d2 : String) (c1 c2 : List String) (h1 h2 : HTTPFingerprint) (t1 t2 : TLSFingerprint)
    (hc : c1.getLast? = c2.getLast?)
    (hfh : h1.final_host = h2.final_host)
    (hst : h1.status = h2.status)
    (hct : h1.content_type = h2.content_type)
    (hsv : h1.server = h2.server)
    (hvia : h1.via = h2.via)
    (hcc : h1.cache = h2.cache)
    (hxc : h1.x_cache = h2.x_cache)
    (hxs : h1.x_served_by = h2.x_served_by)
    (hiss : t1.issuer_cn = t2.issuer_cn)
    (halpn : t1.alpn = t2.alpn) :
    compute_signature d1 c1 h1 t1 = compute_signature d2 c2 h2 t2 := by
  simp only [compute_signature, hc, hfh, hst, hct, hsv, hvia, hcc, hxc, hxs, hiss, halpn]

/-- Witness for C1 at concrete inputs: different domains, different
non-terminal CNAME elements and different non-contributing header fields,
same digest. -/
theorem compute_signature_pure_in_fixed_fields_witness :
    compute_signature "a.example" ["mid.cdn.net", "edge.cdn.net"]
      { ok := true, status := some 200, final_host := "edge.cdn.net", server := "nginx",
        cf_ray := "ray-one" } { ok := true, issuer_cn := "R3", alpn := "h2" } =
    compute_signature "b.example" ["edge.cdn.net"]
      { ok := true, status := some 200, final_host := "edge.cdn.net", server := "nginx",
        cf_ray := "ray-two" } { ok := true, issuer_cn := "R3", alpn := "h2", peer_ip := "1.2.3.4" } :=
  compute_signature_pure_in_fixed_fields _ _ _ _ _ _ _ _
    rfl rfl rfl rfl rfl rfl rfl rfl rfl rfl rfl

/-! ## C5 -/

/-- C5: for every HTTP probe outcome exactly one of (success with status)
or (error) holds: on a raised exception the fingerprint carries the
exception string with `ok` false and every other field at its dataclass
zero value; on a response, `ok` is true, the status is present, the error
is empty, and every curated header that is missing from the response maps
to the empty string, never absent. -/
theorem fetch_http_fingerprint_exclusive :
    (∀ e, fetch_http_fingerprint (.error e) =
      { ok := false, status := none, final_url := "", final_host := "", content_type := "",
        server := "", via := "", cache := "", cf_ray := "", cf_cache_status := "", x_cache := "",
        x_served_by := "", x_amz_cf_pop := "", x_amz_cf_id := "", x_vercel_id := "",
        x_nf_request_id := "", error := e }) ∧
    (∀ r : HttpResponse,
      (fetch_http_fingerprint (.ok r)).ok = true ∧
      (fetch_http_fingerprint (.ok r)).status = some r.status ∧
      (fetch_http_fingerprint (.ok r)).error = "" ∧
      (fetch_http_fingerprint (.ok r)).final_url = r.url ∧
      (fetch_http_fingerprint (.ok r)).final_host = pyLower (r.urlHost.getD "") ∧
      (fetch_http_fingerprint (.ok r)).content_type = (r.headers "content-type").getD "" ∧
      (fetch_http_fingerprint (.ok r)).server = (r.headers "server").getD "" ∧
      (fetch_http_fingerprint (.ok r)).via = (r.headers "via").getD "" ∧
      (fetch_http_fingerprint (.ok r)).cache = (r.headers "cache-control").getD "" ∧
      (fetch_http_fingerprint (.ok r)).cf_ray = (r.headers "cf-ray").getD "" ∧
      (fetch_http_fingerprint (.ok r)).cf_cache_status = (r.headers "cf-cache-status").getD "" ∧
      (fetch_http_fingerprint (.ok r)).x_cache = (r.headers "x-cache").getD "" ∧
      (fetch_http_fingerprint (.ok r)).x_served_by = (r.headers "x-served-by").getD "" ∧
      (fetch_http_fingerprint (.ok r)).x_amz_cf_pop = (r.headers "x-amz-cf-pop").getD "" ∧
      (fetch_http_fingerprint (.ok r)).x_amz_cf_id = (r.headers "x-amz-cf-id").getD "" ∧
      (fetch_http_fingerprint (.ok r)).x_vercel_id = (r.headers "x-vercel-id").getD "" ∧
      (fetch_http_fingerprint (.ok r)).x_nf_request_id = (r.headers "x-nf-request-id").getD "") ∧
    (∀ o, (fetch_http_fingerprint o).ok = true ↔ ∃ r, o = .ok r) := by
  refine ⟨fun e => rfl, fun r => ?_, fun o => ?_⟩
  · refine ⟨rfl, rfl, rfl, rfl, rfl, rfl, rfl, rfl, rfl, rfl, rfl, rfl, rfl, rfl, rfl, rfl, rfl⟩
  · cases o with
    | error e => simp [fetch_http_fingerprint]
    | ok r => simp [fetch_http_fingerprint]

/-- Witness for C5: a concrete failed probe yields exactly the zero
fingerprint with the error recorded. -/
theorem fetch_http_fingerprint_exclusive_witness :
    fetch_http_fingerprint (.error "Cannot connect to host") =
      { ok := false, status := none, final_url := "", final_host := "", content_type := "",
        server := "", via := "", cache := "", cf_ray := "", cf_cache_status := "", x_cache := "",
        x_served_by := "", x_amz_cf_pop := "", x_amz_cf_id := "", x_vercel_id := "",
        x_nf_request_id := "", error := "Cannot connect to host" } :=
  fetch_http_fingerprint_exclusive.1 "Cannot connect to host"

/-! ## C6 -/

/-- C6: whenever resolving the current name fails for any reason (the
resolution oracle returns no target — covering `NoAnswer`, `NXDOMAIN`,
`NoNameservers`, `Timeout` and every other exception, which all `break`
identically), the chain walk stops and returns the chain collected so far;
in particular a failure on the very first name yields the empty chain, and
the failure never propagates (the function totally returns a list). -/
theorem resolve_cname_chain_stops_on_failure (resolve : String → Option String) :
    (∀ fuel cur chain seen, resolve cur = none →
      cnameLoop resolve fuel cur chain seen = chain) ∧
    (∀ domain, resolve (rstripDots domain) = none →
      resolve_cname_chain resolve domain = []) := by
  have hloop : ∀ fuel cur chain seen, resolve cur = none →
      cnameLoop resolve fuel cur chain seen = chain := by
    intro fuel cur chain seen h
    cases fuel with
    | zero => rfl
    | succ n =>
        by_cases hmem : cur ∈ seen
        · simp [cnameLoop, hmem]
        · simp [cnameLoop, hmem, h]
  exact ⟨hloop, fun domain h => hloop 10 _ [] [] h⟩

/-- Witness for C6: an oracle that always fails yields the empty chain. -/
theorem resolve_cname_chain_stops_on_failure_witness :
    resolve_cname_chain (fun _ => none) "example.com" = [] :=
  (resolve_cname_chain_stops_on_failure (fun _ => none)).2 "example.com" rfl

/-! ## C4 -/

/-- Shape of the error list assembled by `scan_domain` (main.py:323-336). -/
theorem scan_domain_errors
    (domain : String) (dnsOutcome : Except String (List String))
    (http : HTTPFingerprint) (tls : TLSFingerprint)
    (ws_paths : List String) (wsResults : List WebSocketProbe) :
    (scan_domain domain dnsOutcome http tls ws_paths wsResults).errors =
      (match dnsOutcome with | .ok _ => [] | .error e => ["cname: " ++ e]) ++
      (if http.ok = false ∧ http.error ≠ "" then ["http: " ++ http.error] else []) ++
      (if tls.ok = false ∧ tls.error ≠ "" then ["tls: " ++ tls.error] else []) := by
  cases dnsOutcome <;> rfl

/-- C4: in `scan_domain`, every per-probe failure is caught locally and
recorded (a DNS failure is appended to the domain's overall error list;
HTTP and TLS failures are recorded on their own sub-structures, which are
kept verbatim in the result, and their error strings are appended to the
overall list too); no probe failure aborts the remaining probes — the
result always carries the HTTP and TLS fingerprints and a signature
computed from them.  In particular a domain whose TLS probe fails but
whose HTTP probe succeeds still yields a complete `DomainScanResult` with
`http.ok = true`, `tls.ok = false`, a non-empty `tls.error` and a computed
signature. -/
theorem scan_domain_isolates_failures
    (domain : String) (dnsOutcome : Except String (List String))
    (http : HTTPFingerprint) (tls : TLSFingerprint)
    (ws_paths : List String) (wsResults : List WebSocketProbe) :
    (scan_domain domain dnsOutcome http tls ws_paths wsResults).http = http ∧
    (scan_domain domain dnsOutcome http tls ws_paths wsResults).tls = tls ∧
    (∀ e, dnsOutcome = .error e →
      ("cname: " ++ e) ∈ (scan_domain domain dnsOutcome http tls ws_paths wsResults).errors ∧
      (scan_domain domain dnsOutcome http tls ws_paths wsResults).cname_chain = []) ∧
    (∀ c, dnsOutcome = .ok c →
      (scan_domain domain dnsOutcome http tls ws_paths wsResults).cname_chain = c) ∧
    (http.ok = false → http.error ≠ "" →
      ("http: " ++ http.error) ∈ (scan_domain domain dnsOutcome http tls ws_paths wsResults).errors) ∧
    (tls.ok = false → tls.error ≠ "" →
      ("tls: " ++ tls.error) ∈ (scan_domain domain dnsOutcome http tls ws_paths wsResults).errors) ∧
    (∀ c, dnsOutcome = .ok c →
      (scan_domain domain dnsOutcome http tls ws_paths wsResults).signature =
        compute_signature domain c http tls) ∧
    (∀ e, dnsOutcome = .error e →
      (scan_domain domain dnsOutcome http tls ws_paths wsResults).signature =
        compute_signature domain [] http tls) ∧
    (http.ok = true → tls.ok = false → tls.error ≠ "" →
      (scan_domain domain dnsOutcome http tls ws_paths wsResults).http.ok = true ∧
      (scan_domain domain dnsOutcome http tls ws_paths wsResults).tls.ok = false ∧
      (scan_domain domain dnsOutcome http tls ws_paths wsResults).tls.error ≠ "") := by
  cases dnsOutcome with
  | ok chain =>
      refine ⟨rfl, rfl, ?_, ?_, ?_, ?_, ?_, ?_, ?_⟩
      · intro e he
        cases he
      · intro c hc
        cases hc
        rfl
      · intro hok herr
        rw [scan_domain_errors]
        have hh : (http.ok = false ∧ http.error ≠ "") := ⟨hok, herr⟩
        simp [hh]
      · intro hok herr
        rw [scan_domain_errors]
        have ht : (tls.ok = false ∧ tls.error ≠ "") := ⟨hok, herr⟩
        simp [ht]
      · intro c hc
        cases hc
        simp only [scan_domain]
      · intro e he
        cases he
      · intro h1 h2 h3
        exact ⟨h1, h2, h3⟩
  | error err =>
      refine ⟨rfl, rfl, ?_, ?_, ?_, ?_, ?_, ?_, ?_⟩
      · intro e he
        cases he
        refine ⟨?_, rfl⟩
        rw [scan_domain_errors]
        simp
      · intro c hc
        cases hc
      · intro hok herr
        rw [scan_domain_errors]
        have hh : (http.ok = false ∧ http.error ≠ "") := ⟨hok, herr⟩
        simp [hh]
      · intro hok herr
        rw [scan_domain_errors]
        have ht : (tls.ok = false ∧ tls.error ≠ "") := ⟨hok, herr⟩
        simp [ht]
      · intro c hc
        cases hc
      · intro e he
        cases he
        simp only [scan_domain]
      · intro h1 h2 h3
        exact ⟨h1, h2, h3⟩

/-- Witness for C4: DNS times out, HTTP succeeds, TLS fails — the result
still carries everything and both failures are recorded. -/
theorem scan_domain_isolates_failures_witness :
    ("cname: timed out") ∈
      (scan_domain "ex.com" (.error "timed out") httpOkFixture tlsFailFixture [] []).errors ∧
    ("tls: handshake failed") ∈
      (scan_domain "ex.com" (.error "timed out") httpOkFixture tlsFailFixture [] []).errors ∧
    (scan_domain "ex.com" (.error "timed out") httpOkFixture tlsFailFixture [] []).http.ok = true ∧
    (scan_domain "ex.com" (.error "timed out") httpOkFixture tlsFailFixture [] []).tls.ok = false ∧
    (scan_domain "ex.com" (.error "timed out") httpOkFixture tlsFailFixture [] []).tls.error ≠ "" := by
  have h := scan_domain_isolates_failures "ex.com" (.error "timed out")
    httpOkFixture tlsFailFixture [] []
  refine ⟨(h.2.2.1 "timed out" rfl).1, ?_, (h.2.2.2.2.2.2.2.2 rfl rfl (by decide)).1,
    (h.2.2.2.2.2.2.2.2 rfl rfl (by decide)).2.1, (h.2.2.2.2.2.2.2.2 rfl rfl (by decide)).2.2⟩
  exact h.2.2.2.2.2.1 rfl (by decide)

/-! ## C9 (amended) -/

/-- C9 counterexample: the claim says the empty-domain-list exit code is
distinct from the generic argument-parsing error code, but `scan_action`
returns 2 (main.py:419) and stock argparse also exits with 2 on an
argument error — the same code. -/
theorem scan_action_exit_code_counterexample :
    (scan_action_run [] trivialScan).1 = 2 ∧
    (scan_action_run [] trivialScan).1 = argparse_error_exit_code ∧
    (scan_action_run [] trivialScan).2 = [] := by
  refine ⟨rfl, rfl, rfl⟩

/-- C9 amended: normal completion returns success (0); an empty resolved
domain list is a fatal condition reported before any scanning, with exit
code 2 — a distinct condition (its own stderr message) but numerically the
same code as argparse's standard argument-parsing failure exit. -/
theorem scan_action_exit_codes
    (domains : List String) (scan : String → DomainScanResult) :
    (domains = [] → scan_action_run domains scan = (2, [])) ∧
    (domains ≠ [] → scan_action_run domains scan = (0, domains.map scan)) ∧
    argparse_error_exit_code = 2 := by
  refine ⟨?_, ?_, rfl⟩
  · intro h
    subst h
    rfl
  · intro h
    simp [scan_action_run, h]

/-- Witness for C9: a one-domain run completes normally with exit code 0
and a scan per domain. -/
theorem scan_action_exit_codes_witness :
    scan_action_run ["a.example"] trivialScan = (0, ["a.example"].map trivialScan) :=
  (scan_action_exit_codes ["a.example"] trivialScan).2.1 (by decide)

/-! ## C10 -/

/-- C10: along every schedule of the orchestrator's step relation — i.e.
for any probe durations and any interleaving — the number of
simultaneously in-flight domain scans never exceeds the configured
concurrency limit enforced by the counting semaphore. -/
theorem scan_concurrency_bound (limit n : Nat) (s : SchedulerState)
    (h : SchedulerReaches limit (initialSched n) s) : s.inflight ≤ limit := by
  induction h with
  | refl => exact Nat.zero_le limit
  | tail hreach hstep ih =>
      cases hstep with
      | acquire hw hroom => exact hroom
      | release hi => exact Nat.le_trans (Nat.sub_le _ 1) ih

/-- Witness for C10: a concrete two-step schedule of three tasks under
limit 2 stays within the bound. -/
theorem scan_concurrency_bound_witness :
    (⟨1, 2, 0⟩ : SchedulerState).inflight ≤ 2 :=
  scan_concurrency_bound 2 3 ⟨1, 2, 0⟩
    (Relation.ReflTransGen.tail
      (Relation.ReflTransGen.single (SchedulerStep.acquire ⟨3, 0, 0⟩ (by decide) (by decide)))
      (SchedulerStep.acquire ⟨2, 1, 0⟩ (by decide) (by decide)))

/-! ## C2 (amended) -/

/-- The eleven signature fields of spec §4.6 as (label, raw value) pairs,
in the spec's fixed order: terminal CNAME target, final resolved host,
HTTP status, content type, server, via, cache-control, x-cache,
x-served-by, TLS issuer common name, negotiated ALPN.  Labels carry the
`=` separator of the hashed rendering. -/
def signature_fields (cname_chain : List String) (http : HTTPFingerprint)
    (tls : TLSFingerprint) : List (String × String) :=
  [("cname=", (cname_chain.getLast?).getD ""),
   ("final_host=", http.final_host),
   ("status=", (http.status.map (fun n => toString n)).getD ""),
   ("content_type=", http.content_type),
   ("server=", http.server),
   ("via=", http.via),
   ("cache_control=", http.cache),
   ("x_cache=", http.x_cache),
   ("x_served_by=", http.x_served_by),
   ("issuer=", tls.issuer_cn),
   ("alpn=", tls.alpn)]

/-- Signature per the amended spec sentence: the first 16 hex characters of
SHA-256 over the pipe-joined labeled fields, every textual field lowercased
except the final resolved host, which is incorporated as-is (the numeric
status rendering has no case). -/
def signature_spec_amended (cname_chain : List String) (http : HTTPFingerprint)
    (tls : TLSFingerprint) : String :=
  pyTake (sha256_hex (pyJoin "|" ((signature_fields cname_chain http tls).map
    (fun kv => kv.1 ++ (if kv.1 = "final_host=" ∨ kv.1 = "status=" then kv.2
      else pyLower kv.2))))) 16

/-- Signature per the claim as stated: every contributing field lowercased,
including the final resolved host (the numeric status rendering has no
case). -/
def signature_spec_claimed (cname_chain : List String) (http : HTTPFingerprint)
    (tls : TLSFingerprint) : String :=
  pyTake (sha256_hex (pyJoin "|" ((signature_fields cname_chain http tls).map
    (fun kv => kv.1 ++ (if kv.1 = "status=" then kv.2 else pyLower kv.2))))) 16

set_option maxRecDepth 1000000 in
/-- C2 counterexample: `compute_signature` concatenates `final_host` as-is
(main.py:294), so at an input whose final host carries uppercase letters
the produced digest differs from the claim's all-lowercased digest.  (In
the live pipeline the field is lowercased earlier, at capture time
(main.py:173), which makes the difference latent — but the claim is about
`compute_signature` on every input.) -/
theorem compute_signature_claim_counterexample :
    compute_signature "example.com" []
      { ok := true, status := some 200, final_host := "EXAMPLE.com" } {} ≠
    signature_spec_claimed []
      { ok := true, status := some 200, final_host := "EXAMPLE.com" } {} := by
  decide

/-- C2 amended: for every input, `compute_signature` returns exactly the
first 16 hexadecimal characters of SHA-256 of the fixed, ordered,
pipe-joined labeled rendering of the eleven listed fields, with every
contributing textual field lowercased except the final resolved host,
which is incorporated as-is (it is lowercased upstream when captured by
the HTTP prober). -/
theorem compute_signature_digest_amended (domain : String) (cname_chain : List String)
    (http : HTTPFingerprint) (tls : TLSFingerprint) :
    compute_signature domain cname_chain http tls =
      signature_spec_amended cname_chain http tls := by
  cases hc : cname_chain.getLast? <;> cases hs : http.status <;>
    simp [compute_signature, signature_spec_amended, signature_fields, hc, hs, pyLower]

/-! ## C3 (amended) -/

/-- The chain grows by at most one entry per unit of fuel. -/
theorem cnameLoop_length_le (resolve : String → Option String) :
    ∀ (fuel : Nat) (cur : String) (chain seen : List String),
      (cnameLoop resolve fuel cur chain seen).length ≤ chain.length + fuel := by
  intro fuel
  induction fuel with
  | zero => intro cur chain seen; simp [cnameLoop]
  | succ n ih =>
      intro cur chain seen
      by_cases hmem : cur ∈ seen
      · simp [cnameLoop, hmem]
      · cases hres : resolve cur with
        | none => simp [cnameLoop, hmem, hres]
        | some t =>
            have h := ih (rstripDots t) (chain ++ [rstripDots t]) (seen ++ [cur])
            simp only [cnameLoop, hmem, hres, if_neg, not_false_iff]
            simp only [List.length_append, List.length_cons, List.length_nil] at h ⊢
            omega

/-- Every name recorded so far, except possibly the last, has been added to
the visited set; hence the chain with its last entry removed stays
duplicate-free. -/
theorem cnameLoop_dropLast_nodup (resolve : String → Option String) :
    ∀ (fuel : Nat) (cur : String) (chain seen : List String),
      (chain = [] ∨ chain.getLast? = some cur) →
      (∀ x ∈ chain.dropLast, x ∈ seen) →
      chain.dropLast.Nodup →
      (cnameLoop resolve fuel cur chain seen).dropLast.Nodup := by
  intro fuel
  induction fuel with
  | zero => intro cur chain seen _ _ hnd; simpa [cnameLoop] using hnd
  | succ n ih =>
      intro cur chain seen hlast hsub hnd
      by_cases hmem : cur ∈ seen
      · simpa [cnameLoop, hmem] using hnd
      · cases hres : resolve cur with
        | none => simpa [cnameLoop, hmem, hres] using hnd
        | some t =>
            simp only [cnameLoop, hmem, hres, if_neg, not_false_iff]
            rcases hlast with h0 | hl
            · subst h0
              apply ih (rstripDots t) [rstripDots t] (seen ++ [cur])
              · exact Or.inr rfl
              · intro x hx; cases hx
              · exact List.nodup_nil
            · have hne : chain ≠ [] := by
                intro h
                rw [h] at hl
                cases hl
              have hcur : chain.getLast hne = cur := by
                have h2 := (List.getLast?_eq_getLast chain hne).symm.trans hl
                injection h2
              apply ih (rstripDots t) (chain ++ [rstripDots t]) (seen ++ [cur])
              · exact Or.inr (List.getLast?_concat _)
              · intro x hx
                rw [List.dropLast_concat] at hx
                have hx2 : x ∈ chain.dropLast ++ [chain.getLast hne] := by
                  rw [List.dropLast_append_getLast hne]
                  exact hx
                rcases List.mem_append.mp hx2 with hx3 | hx3
                · exact List.mem_append.mpr (Or.inl (hsub x hx3))
                · have : x = cur := by
                    rw [← hcur]
                    simpa using hx3
                  subst this
                  exact List.mem_append.mpr (Or.inr (by simp))
              · rw [List.dropLast_concat]
                have hchain : chain.dropLast ++ [chain.getLast hne] = chain :=
                  List.dropLast_append_getLast hne
                rw [← hchain, List.nodup_append]
                refine ⟨hnd, List.nodup_singleton _, ?_⟩
                intro a ha hb
                have : a = cur := by
                  rw [← hcur]
                  simpa using hb
                subst this
                exact hmem (hsub a ha)

/-- C3 counterexample: a self-CNAME `a → b`, `b → b` makes the walk append
`b` twice — the target is appended before the visited-set check sees it —
so the returned chain does repeat a hostname. -/
theorem resolve_cname_chain_repeat_counterexample :
    resolve_cname_chain selfCnameOracle "a" = ["b", "b"] ∧
    ¬ (resolve_cname_chain selfCnameOracle "a").Nodup := by
  decide

/-- C3 amended: for every domain and every DNS resolution oracle the chain
has length at most 10, and all entries except possibly the last are
pairwise distinct (the walk can append one terminal repeat before the
visited-name set stops it — see the counterexample); the synthetic CNAME
cycle `a → b → a` yields exactly `["b", "a"]`: it stops well before 10
entries and repeats no hostname. -/
theorem resolve_cname_chain_bounded (resolve : String → Option String) (domain : String) :
    (resolve_cname_chain resolve domain).length ≤ 10 ∧
    (resolve_cname_chain resolve domain).dropLast.Nodup ∧
    resolve_cname_chain abaOracle "a" = ["b", "a"] ∧
    (resolve_cname_chain abaOracle "a").length < 10 ∧
    (resolve_cname_chain abaOracle "a").Nodup := by
  refine ⟨?_, ?_, by decide, by decide, by decide⟩
  · simpa using cnameLoop_length_le resolve 10 (rstripDots domain) [] []
  · exact cnameLoop_dropLast_nodup resolve 10 (rstripDots domain) [] []
      (Or.inl rfl) (by intro x hx; cases hx) List.nodup_nil

/-! ## C8 (amended) -/

/-- C8 counterexample: `_norm_domain` has no `try/except`, so the
`ValueError` CPython's `urlsplit` raises on `"a://["` (its authority has an
unbalanced `[`, tripping the bracket-balance check) propagates to the
caller instead of yielding nothing. -/
theorem norm_domain_exception_counterexample :
    norm_domain bracketParseOracle "a://[" = .error "Invalid IPv6 URL" := rfl

/-- C8 amended: blank lines and `#`-comments yield nothing; a line without
a scheme separator never surfaces an exception and yields a normalized
hostname or nothing; but on a line containing `://` whose URL parse raises
(as CPython's `urlsplit` does for an authority with unbalanced square
brackets), the exception propagates to the caller — and those are exactly
the lines that can raise. -/
theorem norm_domain_amended (parse : String → Except String (Option String)) (line : String) :
    (pyStrip line = "" → norm_domain parse line = .ok none) ∧
    (pyStartsWith (pyStrip line) "#" = true → norm_domain parse line = .ok none) ∧
    (hasSchemeSep (pyStrip line) = false → ∃ o, norm_domain parse line = .ok o) ∧
    (∀ e, norm_domain parse line = .error e ↔
      (pyStrip line ≠ "" ∧ pyStartsWith (pyStrip line) "#" = false ∧
       hasSchemeSep (pyStrip line) = true ∧ parse (pyStrip line) = .error e)) := by
  refine ⟨?_, ?_, ?_, ?_⟩
  · intro h
    simp [norm_domain, h]
  · intro h
    by_cases h0 : pyStrip line = ""
    · simp [norm_domain, h0]
    · simp [norm_domain, h0, h]
  · intro h
    by_cases h0 : pyStrip line = ""
    · exact ⟨none, by simp [norm_domain, h0]⟩
    · by_cases h1 : pyStartsWith (pyStrip line) "#"
      · exact ⟨none, by simp [norm_domain, h0, h1]⟩
      · exact ⟨(if pyLower (stripDots (if colonCount (beforeSlash (pyStrip line)) = 1 then
            beforeColon (beforeSlash (pyStrip line)) else beforeSlash (pyStrip line))) = ""
            then none
            else some (pyLower (stripDots (if colonCount (beforeSlash (pyStrip line)) = 1 then
              beforeColon (beforeSlash (pyStrip line)) else beforeSlash (pyStrip line))))),
          by simp [norm_domain, h0, h1, h]⟩
  · intro e
    by_cases h0 : pyStrip line = ""
    · simp [norm_domain, h0]
    · by_cases h1 : pyStartsWith (pyStrip line) "#"
      · simp [norm_domain, h0, h1]
      · by_cases h2 : hasSchemeSep (pyStrip line)
        · cases hp : parse (pyStrip line) with
          | error e2 => simp [norm_domain, h0, h1, h2, hp]
          | ok o =>
              cases o with
              | none => simp [norm_domain, h0, h1, h2, hp]
              | some host =>
                  by_cases hh : host = ""
                  · simp [norm_domain, h0, h1, h2, hp, hh]
                  · simp [norm_domain, h0, h1, h2, hp, hh]
        · simp [norm_domain, h0, h1, h2]

/-- Witness for C8 at concrete lines: a comment line and a plain hostname
line (the URL parser is never consulted for either). -/
theorem norm_domain_amended_witness :
    norm_domain bracketParseOracle "# comment" = .ok none ∧
    (∃ o, norm_domain bracketParseOracle "Sub.Example.ORG/path" = .ok o) := by
  refine ⟨(norm_domain_amended bracketParseOracle "# comment").2.1 (by decide), ?_⟩
  exact (norm_domain_amended bracketParseOracle "Sub.Example.ORG/path").2.2.1 (by decide)

/-! ## C7: grouping, ordering, stable ties -/

/-- Index of the first result carrying signature `k` (the first-encounter
position used to state tie stability). -/
def firstSigIdx : List DomainScanResult → String → Nat
  | [], _ => 0
  | r :: rest, k => if r.signature = k then 0 else firstSigIdx rest k + 1

theorem firstSigIdx_lt_length :
    ∀ (l : List DomainScanResult) (k : String),
      k ∈ l.map (fun x => x.signature) → firstSigIdx l k < l.length := by
  intro l
  induction l with
  | nil => intro k hk; simp at hk
  | cons r rest ih =>
      intro k hk
      by_cases hr : r.signature = k
      · simp [firstSigIdx, hr]
      · rw [List.map_cons, List.mem_cons] at hk
        have hk2 : k ∈ rest.map (fun x => x.signature) := by
          rcases hk with h | h
          · exact absurd h.symm hr
          · exact h
        have := ih k hk2
        simp [firstSigIdx, hr]
        omega

theorem firstSigIdx_append :
    ∀ (l l2 : List DomainScanResult) (k : String),
      k ∈ l.map (fun x => x.signature) → firstSigIdx (l ++ l2) k = firstSigIdx l k := by
  intro l
  induction l with
  | nil => intro l2 k hk; simp at hk
  | cons r rest ih =>
      intro l2 k hk
      by_cases hr : r.signature = k
      · simp [firstSigIdx, hr]
      · rw [List.map_cons, List.mem_cons] at hk
        have hk2 : k ∈ rest.map (fun x => x.signature) := by
          rcases hk with h | h
          · exact absurd h.symm hr
          · exact h
        simp [firstSigIdx, hr, ih l2 k hk2]

theorem firstSigIdx_concat_self :
    ∀ (l : List DomainScanResult) (r : DomainScanResult),
      r.signature ∉ l.map (fun x => x.signature) →
      firstSigIdx (l ++ [r]) r.signature = l.length := by
  intro l
  induction l with
  | nil => intro r _; simp [firstSigIdx]
  | cons a rest ih =>
      intro r h
      have ha : a.signature ≠ r.signature := by
        intro he
        exact h (by simp [he])
      simp [firstSigIdx, ha, ih r (fun hm => h (by simp [hm]))]

theorem buildGroups_concat (results : List DomainScanResult) (r : DomainScanResult) :
    buildGroups (results ++ [r]) = upsertResult r (buildGroups results) := by
  simp [buildGroups, List.foldl_append]

/-- Keys after an upsert: unchanged when the signature is present, appended
at the end when new (the dict keeps key insertion order). -/
theorem upsertResult_keys (r : DomainScanResult) :
    ∀ acc : List (String × List DomainScanResult),
      (upsertResult r acc).map Prod.fst =
        (if r.signature ∈ acc.map Prod.fst then acc.map Prod.fst
         else acc.map Prod.fst ++ [r.signature]) := by
  intro acc
  induction acc with
  | nil => simp [upsertResult]
  | cons kv rest ih =>
      obtain ⟨k, v⟩ := kv
      by_cases hk : k = r.signature
      · subst hk
        simp [upsertResult]
      · by_cases hmem : r.signature ∈ rest.map Prod.fst
        · simp [upsertResult, hk, ih, hmem, Ne.symm hk]
        · simp [upsertResult, hk, ih, hmem, Ne.symm hk]

/-- Values after an upsert: each entry is exactly the filter of the grown
result list by its key. -/
theorem upsertResult_values (r : DomainScanResult) (results : List DomainScanResult) :
    ∀ acc : List (String × List DomainScanResult),
      (acc.map Prod.fst).Nodup →
      (∀ kv ∈ acc, kv.2 = results.filter (fun x => x.signature = kv.1)) →
      (r.signature ∉ acc.map Prod.fst →
        results.filter (fun x => x.signature = r.signature) = []) →
      ∀ kv ∈ upsertResult r acc,
        kv.2 = (results ++ [r]).filter (fun x => x.signature = kv.1) := by
  intro acc
  induction acc with
  | nil =>
      intro _ _ hFresh kv hkv
      simp only [upsertResult, List.mem_singleton] at hkv
      subst hkv
      simp [List.filter_append, hFresh (by simp)]
  | cons kv0 rest ih =>
      intro hnd hP hFresh kv hkv
      obtain ⟨k, v⟩ := kv0
      have hnd2 : (k :: rest.map Prod.fst).Nodup := by simpa using hnd
      have hndk : k ∉ rest.map Prod.fst := (List.nodup_cons.mp hnd2).1
      have hndrest : (rest.map Prod.fst).Nodup := (List.nodup_cons.mp hnd2).2
      have hv0 : v = results.filter (fun x => x.signature = k) :=
        hP (k, v) (List.mem_cons_self _ _)
      by_cases hk : k = r.signature
      · rw [upsertResult, if_pos hk] at hkv
        rcases List.mem_cons.mp hkv with h | h
        · rw [h]
          show v ++ [r] = (results ++ [r]).filter (fun x => x.signature = k)
          rw [List.filter_append, ← hv0]
          have hone : List.filter (fun x => decide (x.signature = k)) [r] = [r] := by
            simp [hk]
          rw [hone]
        · have hv := hP kv (List.mem_cons_of_mem _ h)
          have hkne : r.signature ≠ kv.1 := by
            intro he
            apply hndk
            have hm : kv.1 ∈ rest.map Prod.fst := List.mem_map.mpr ⟨kv, h, rfl⟩
            rw [hk, he]
            exact hm
          rw [hv, List.filter_append]
          simp [hkne]
      · rw [upsertResult, if_neg hk] at hkv
        rcases List.mem_cons.mp hkv with h | h
        · rw [h]
          show v = (results ++ [r]).filter (fun x => x.signature = k)
          rw [List.filter_append, ← hv0]
          have hnone : List.filter (fun x => decide (x.signature = k)) [r] = [] := by
            simp
            intro he
            exact hk he.symm
          rw [hnone, List.append_nil]
        · refine ih hndrest (fun kv2 hkv2 => hP kv2 (List.mem_cons_of_mem _ hkv2)) ?_ kv h
          intro hm
          apply hFresh
          rw [List.map_cons]
          intro hmm
          rcases List.mem_cons.mp hmm with h2 | h2
          · exact hk h2.symm
          · exact hm h2

/-- Invariants of the dict build-up: keys are duplicate-free, each entry is
the filter of the results by its key, every scanned signature has an entry,
every key comes from a scanned signature, and keys sit in first-encounter
order. -/
theorem buildGroups_spec (results : List DomainScanResult) :
    ((buildGroups results).map Prod.fst).Nodup ∧
    (∀ kv ∈ buildGroups results, kv.2 = results.filter (fun x => x.signature = kv.1)) ∧
    (∀ x ∈ results, x.signature ∈ (buildGroups results).map Prod.fst) ∧
    (∀ k ∈ (buildGroups results).map Prod.fst, k ∈ results.map (fun x => x.signature)) ∧
    List.Pairwise (fun k1 k2 => firstSigIdx results k1 < firstSigIdx results k2)
      ((buildGroups results).map Prod.fst) := by
  induction results using List.reverseRecOn with
  | nil => simp [buildGroups]
  | append_singleton results r ih =>
      obtain ⟨ihnd, ihP, ihK, ihKm, ihPw⟩ := ih
      rw [buildGroups_concat]
      by_cases hmem : r.signature ∈ (buildGroups results).map Prod.fst
      · have hkeys : (upsertResult r (buildGroups results)).map Prod.fst =
            (buildGroups results).map Prod.fst := by
          rw [upsertResult_keys]
          simp [hmem]
        refine ⟨?_, ?_, ?_, ?_, ?_⟩
        · rw [hkeys]
          exact ihnd
        · exact upsertResult_values r results (buildGroups results) ihnd ihP
            (fun h => absurd hmem h)
        · intro x hx
          rw [hkeys]
          rcases List.mem_append.mp hx with h | h
          · exact ihK x h
          · have hxr : x = r := by simpa using h
            subst hxr
            exact hmem
        · intro k hk
          rw [hkeys] at hk
          rw [List.map_append]
          exact List.mem_append.mpr (Or.inl (ihKm k hk))
        · rw [hkeys]
          refine List.Pairwise.imp_of_mem ?_ ihPw
          intro a b ha hb hab
          rw [firstSigIdx_append results [r] a (ihKm a ha),
            firstSigIdx_append results [r] b (ihKm b hb)]
          exact hab
      · have hkeys : (upsertResult r (buildGroups results)).map Prod.fst =
            (buildGroups results).map Prod.fst ++ [r.signature] := by
          rw [upsertResult_keys]
          simp [hmem]
        have hnotsig : r.signature ∉ results.map (fun x => x.signature) := by
          intro h
          rcases List.mem_map.mp h with ⟨x, hx, hxs⟩
          exact hmem (hxs ▸ ihK x hx)
        have hfresh : results.filter (fun x => x.signature = r.signature) = [] := by
          rw [List.filter_eq_nil_iff]
          intro a ha
          simp only [decide_eq_true_eq]
          intro he
          exact hnotsig (List.mem_map.mpr ⟨a, ha, he⟩)
        refine ⟨?_, ?_, ?_, ?_, ?_⟩
        · rw [hkeys, List.nodup_append]
          refine ⟨ihnd, List.nodup_singleton _, ?_⟩
          intro a ha hb
          have : a = r.signature := by simpa using hb
          subst this
          exact hmem ha
        · exact upsertResult_values r results (buildGroups results) ihnd ihP
            (fun _ => hfresh)
        · intro x hx
          rw [hkeys]
          rcases List.mem_append.mp hx with h | h
          · exact List.mem_append.mpr (Or.inl (ihK x h))
          · have hxr : x = r := by simpa using h
            subst hxr
            exact List.mem_append.mpr (Or.inr (by simp))
        · intro k hk
          rw [hkeys] at hk
          rw [List.map_append]
          rcases List.mem_append.mp hk with h | h
          · exact List.mem_append.mpr (Or.inl (ihKm k h))
          · have hkr : k = r.signature := by simpa using h
            subst hkr
            exact List.mem_append.mpr (Or.inr (by simp))
        · rw [hkeys, List.pairwise_append]
          refine ⟨?_, List.pairwise_singleton _ _, ?_⟩
          · refine List.Pairwise.imp_of_mem ?_ ihPw
            intro a b ha hb hab
            rw [firstSigIdx_append results [r] a (ihKm a ha),
              firstSigIdx_append results [r] b (ihKm b hb)]
            exact hab
          · intro a ha b hb
            have hbr : b = r.signature := by simpa using hb
            subst hbr
            rw [firstSigIdx_append results [r] a (ihKm a ha),
              firstSigIdx_concat_self results r hnotsig]
            exact firstSigIdx_lt_length results a (ihKm a ha)

theorem mem_insertByCountDesc (x y : String × List DomainScanResult) :
    ∀ l, y ∈ insertByCountDesc x l ↔ y = x ∨ y ∈ l := by
  intro l
  induction l with
  | nil => simp [insertByCountDesc]
  | cons z zs ih =>
      by_cases hlt : x.2.length < z.2.length
      · rw [insertByCountDesc, if_pos hlt]
        simp only [List.mem_cons, ih]
        tauto
      · rw [insertByCountDesc, if_neg hlt]
        simp only [List.mem_cons]

theorem mem_sortByCountDesc (y : String × List DomainScanResult) :
    ∀ l, y ∈ sortByCountDesc l ↔ y ∈ l := by
  intro l
  induction l with
  | nil => simp [sortByCountDesc]
  | cons z zs ih =>
      simp [sortByCountDesc, mem_insertByCountDesc, ih]

theorem insertByCountDesc_perm (x : String × List DomainScanResult) :
    ∀ l, (insertByCountDesc x l).Perm (x :: l) := by
  intro l
  induction l with
  | nil => exact List.Perm.refl _
  | cons z zs ih =>
      by_cases hlt : x.2.length < z.2.length
      · rw [insertByCountDesc, if_pos hlt]
        exact (ih.cons z).trans (List.Perm.swap x z zs)
      · rw [insertByCountDesc, if_neg hlt]

theorem sortByCountDesc_perm : ∀ l, (sortByCountDesc l).Perm l := by
  intro l
  induction l with
  | nil => exact List.Perm.refl _
  | cons z zs ih =>
      exact ((insertByCountDesc_perm z (sortByCountDesc zs)).trans (ih.cons z))

/-- Inserting an element that ties only with entries it is allowed to
precede preserves the combined order invariant: counts descending, and on
equal counts the first-encounter index increasing. -/
theorem insertByCountDesc_pairwise (results : List DomainScanResult)
    (x : String × List DomainScanResult) :
    ∀ l, List.Pairwise (fun a b => b.2.length ≤ a.2.length ∧
        (a.2.length = b.2.length → firstSigIdx results a.1 < firstSigIdx results b.1)) l →
      (∀ y ∈ l, x.2.length = y.2.length →
        firstSigIdx results x.1 < firstSigIdx results y.1) →
      List.Pairwise (fun a b => b.2.length ≤ a.2.length ∧
        (a.2.length = b.2.length → firstSigIdx results a.1 < firstSigIdx results b.1))
        (insertByCountDesc x l) := by
  intro l
  induction l with
  | nil => intro _ _; exact List.pairwise_singleton _ _
  | cons y ys ih =>
      intro hP hQ
      have hP1 := (List.pairwise_cons.mp hP).1
      have hP2 := (List.pairwise_cons.mp hP).2
      by_cases hlt : x.2.length < y.2.length
      · rw [insertByCountDesc, if_pos hlt]
        rw [List.pairwise_cons]
        constructor
        · intro z hz
          rcases (mem_insertByCountDesc x z ys).mp hz with h | h
          · subst h
            exact ⟨Nat.le_of_lt hlt, fun he => absurd he (by omega)⟩
          · exact hP1 z h
        · exact ih hP2 (fun z hz => hQ z (List.mem_cons_of_mem y hz))
      · rw [insertByCountDesc, if_neg hlt]
        rw [List.pairwise_cons]
        constructor
        · intro z hz
          rcases List.mem_cons.mp hz with h | h
          · subst h
            exact ⟨Nat.le_of_not_lt hlt, fun he => hQ z (List.mem_cons_self z ys) he⟩
          · have hyz := hP1 z h
            exact ⟨Nat.le_trans hyz.1 (Nat.le_of_not_lt hlt),
              fun he => hQ z (List.mem_cons_of_mem y h) he⟩
        · exact hP

/-- Sorting a list whose ties already respect the first-encounter order
yields the combined order invariant (stability of the insertion sort). -/
theorem sortByCountDesc_pairwise (results : List DomainScanResult) :
    ∀ l, List.Pairwise (fun a b => a.2.length = b.2.length →
        firstSigIdx results a.1 < firstSigIdx results b.1) l →
      List.Pairwise (fun a b => b.2.length ≤ a.2.length ∧
        (a.2.length = b.2.length → firstSigIdx results a.1 < firstSigIdx results b.1))
        (sortByCountDesc l) := by
  intro l
  induction l with
  | nil => intro _; exact List.Pairwise.nil
  | cons x xs ih =>
      intro hP
      have h1 := (List.pairwise_cons.mp hP).1
      have h2 := (List.pairwise_cons.mp hP).2
      exact insertByCountDesc_pairwise results x (sortByCountDesc xs) (ih h2)
        (fun y hy he => h1 y ((mem_sortByCountDesc y xs).mp hy) he)

/-- C7: `group_by_signature` groups all completed results by signature —
each returned group is exactly the input results carrying its key, in
input order, every input signature has a group and every key is an input
signature, with no duplicate keys — and the groups come out ordered by
member count descending, where groups of equal size keep the relative
order in which their signatures were first encountered in the input
(stable ties, no secondary sort key). -/
theorem group_by_signature_grouped_sorted_stable (results : List DomainScanResult) :
    (∀ kv ∈ group_by_signature results,
      kv.2 = results.filter (fun x => x.signature = kv.1)) ∧
    (∀ x ∈ results, x.signature ∈ (group_by_signature results).map Prod.fst) ∧
    (∀ k ∈ (group_by_signature results).map Prod.fst,
      k ∈ results.map (fun x => x.signature)) ∧
    ((group_by_signature results).map Prod.fst).Nodup ∧
    List.Pairwise (fun a b => b.2.length ≤ a.2.length ∧
      (a.2.length = b.2.length → firstSigIdx results a.1 < firstSigIdx results b.1))
      (group_by_signature results) := by
  obtain ⟨hnd, hP, hK, hKm, hPw⟩ := buildGroups_spec results
  have hperm : (group_by_signature results).Perm (buildGroups results) :=
    sortByCountDesc_perm (buildGroups results)
  refine ⟨?_, ?_, ?_, ?_, ?_⟩
  · intro kv hkv
    exact hP kv ((mem_sortByCountDesc kv (buildGroups results)).mp hkv)
  · intro x hx
    exact (List.Perm.mem_iff (hperm.map Prod.fst)).mpr (hK x hx)
  · intro k hk
    exact hKm k ((List.Perm.mem_iff (hperm.map Prod.fst)).mp hk)
  · exact (List.Perm.nodup_iff (hperm.map Prod.fst)).mpr hnd
  · apply sortByCountDesc_pairwise
    have hpairs : List.Pairwise
        (fun a b => firstSigIdx results a.1 < firstSigIdx results b.1)
        (buildGroups results) := by
      have := List.pairwise_map.mp hPw
      exact this
    exact List.Pairwise.imp_of_mem (fun _ _ h _ => h) hpairs

/-- Three fixed scan results used by the C7 witness: two share a
signature, the third differs. -/
def dsrA : DomainScanResult := { domain := "a.example", signature := "sig1" }

/-- See `dsrA`. -/
def dsrB : DomainScanResult := { domain := "b.example", signature := "sig1" }

/-- See `dsrA`. -/
def dsrC : DomainScanResult := { domain := "c.example", signature := "sig2" }

/-- Witness for C7 at a concrete result list: the keys are duplicate-free,
every input signature is present, and the group of `sig1` is the filtered
input. -/
theorem group_by_signature_grouped_sorted_stable_witness :
    ((group_by_signature [dsrA, dsrB, dsrC]).map Prod.fst).Nodup ∧
    dsrC.signature ∈ (group_by_signature [dsrA, dsrB, dsrC]).map Prod.fst :=
  ⟨(group_by_signature_grouped_sorted_stable [dsrA, dsrB, dsrC]).2.2.2.1,
   (group_by_signature_grouped_sorted_stable [dsrA, dsrB, dsrC]).2.1 dsrC (by simp)⟩
